import Mathlib

/-!
Verification of the workflow-execution core of the Intelligent Workflow
Automation Platform.

The development shallowly embeds the Python modules
`app/workers/task_executors.py` and `app/workers/workflow_executor.py`:

* Python dicts with string keys become association lists (`Dict`) with a
  position-preserving insert-or-update operation (`dinsert`), matching
  `d[k] = v` semantics.
* JSON-like Python values become the inductive type `Value`.
* External effects (the HTTP client, `eval` of a condition string, the
  database query that loads the workflow, and the two `utcnow()` readings)
  become explicit oracle parameters, so every definition is executable.
* A Python function that may raise becomes a function into `Except String`;
  a `try/except` block becomes a `match` on that result.
-/

set_option maxHeartbeats 1000000

namespace WorkflowPlatform

/-- JSON-like runtime values, as produced and consumed by the executors.
Dict keys are restricted to strings: every key the program creates
(`"input"`, task names, result-field names) is a string. -/
inductive Value where
  | null
  | bool (b : Bool)
  | int (n : Int)
  | str (s : String)
  | list (xs : List Value)
  | dict (xs : List (String × Value))

/-- A Python dict with string keys, as an association list in insertion
order with unique keys maintained by `dinsert`. -/
abbrev Dict := List (String × Value)

/-- `d[k] = v`: update the value in place if `k` is present, else append
`(k, v)` at the end — Python dicts preserve insertion order. -/
def dinsert (d : Dict) (k : String) (v : Value) : Dict :=
  match d with
  | [] => [(k, v)]
  | (k₁, v₁) :: rest => if k₁ = k then (k, v) :: rest else (k₁, v₁) :: dinsert rest k v

/-- The keys of a dict, in order. -/
def dkeys (d : Dict) : List String :=
  d.map Prod.fst

/-- Build a dict from a list of key-value pairs by repeated `dinsert`,
later pairs overwriting earlier ones — the semantics of a Python dict
literal with possibly colliding keys. -/
def dinsertAll (d : Dict) (ps : List (String × Value)) : Dict :=
  ps.foldl (fun acc p => dinsert acc p.1 p.2) d

/-- A Python dict literal `{k₁: v₁, ...}`. -/
def mkDict (ps : List (String × Value)) : Dict :=
  dinsertAll [] ps

@[simp] theorem dkeys_nil : dkeys ([] : Dict) = [] := rfl

@[simp] theorem dkeys_cons (k : String) (v : Value) (d : Dict) :
    dkeys ((k, v) :: d) = k :: dkeys d := rfl

@[simp] theorem dinsert_nil (k : String) (v : Value) :
    dinsert [] k v = [(k, v)] := rfl

theorem dinsert_cons (k₁ : String) (v₁ : Value) (d : Dict) (k : String) (v : Value) :
    dinsert ((k₁, v₁) :: d) k v =
      if k₁ = k then (k, v) :: d else (k₁, v₁) :: dinsert d k v := rfl

theorem lookup_dinsert_self (d : Dict) (k : String) (v : Value) :
    List.lookup k (dinsert d k v) = some v := by
  induction d with
  | nil => simp [dinsert, List.lookup]
  | cons p rest ih =>
    obtain ⟨k₁, v₁⟩ := p
    by_cases h : k₁ = k
    · simp [dinsert, h, List.lookup]
    · simp only [dinsert, if_neg h, List.lookup]
      have : (k == k₁) = false := by
        simp [beq_iff_eq]; exact fun hk => h hk.symm
      simp [this, ih]

theorem lookup_dinsert_ne (d : Dict) (k k₂ : String) (v : Value) (hne : k ≠ k₂) :
    List.lookup k₂ (dinsert d k v) = List.lookup k₂ d := by
  induction d with
  | nil =>
    have : (k₂ == k) = false := by simp [beq_iff_eq]; exact fun hk => hne hk.symm
    simp [dinsert, List.lookup, this]
  | cons p rest ih =>
    obtain ⟨k₁, v₁⟩ := p
    by_cases h : k₁ = k
    · subst h
      have : (k₂ == k₁) = false := by simp [beq_iff_eq]; exact fun hk => hne hk.symm
      simp [dinsert, List.lookup, this]
    · simp only [dinsert, if_neg h, List.lookup]
      by_cases h₂ : k₂ = k₁
      · simp [h₂]
      · have : (k₂ == k₁) = false := by simp [beq_iff_eq]; exact h₂
        simp [this, ih]

theorem dkeys_dinsert_mem (d : Dict) (k : String) (v : Value) (h : k ∈ dkeys d) :
    dkeys (dinsert d k v) = dkeys d := by
  induction d with
  | nil => simp at h
  | cons p rest ih =>
    obtain ⟨k₁, v₁⟩ := p
    by_cases hk : k₁ = k
    · simp [dinsert_cons, hk]
    · have h' : k ∈ dkeys rest := by
        rcases List.mem_cons.mp (by simpa using h) with h₀ | h₀
        · exact absurd h₀.symm hk
        · exact h₀
      simp [dinsert_cons, if_neg hk, ih h']

theorem dkeys_dinsert_not_mem (d : Dict) (k : String) (v : Value) (h : k ∉ dkeys d) :
    dkeys (dinsert d k v) = dkeys d ++ [k] := by
  induction d with
  | nil => simp
  | cons p rest ih =>
    obtain ⟨k₁, v₁⟩ := p
    simp only [dkeys_cons, List.mem_cons] at h
    push_neg at h
    simp [dinsert_cons, Ne.symm h.1, ih h.2]

theorem mem_dkeys_dinsert (d : Dict) (k k₂ : String) (v : Value) :
    k₂ ∈ dkeys (dinsert d k v) ↔ k₂ = k ∨ k₂ ∈ dkeys d := by
  by_cases h : k ∈ dkeys d
  · rw [dkeys_dinsert_mem d k v h]
    constructor
    · exact Or.inr
    · rintro (rfl | hm)
      · exact h
      · exact hm
  · rw [dkeys_dinsert_not_mem d k v h]
    simp [or_comm]

theorem lookup_eq_none_of_not_mem (d : Dict) (k : String) (h : k ∉ dkeys d) :
    List.lookup k d = none := by
  induction d with
  | nil => rfl
  | cons p rest ih =>
    obtain ⟨k₁, v₁⟩ := p
    simp only [dkeys_cons, List.mem_cons] at h
    push_neg at h
    have : (k == k₁) = false := by simp [beq_iff_eq]; exact h.1
    simp [List.lookup, this, ih h.2]

theorem lookup_append (l₁ l₂ : Dict) (k : String) :
    List.lookup k (l₁ ++ l₂) =
      match List.lookup k l₁ with
      | some v => some v
      | none => List.lookup k l₂ := by
  induction l₁ with
  | nil => rfl
  | cons p rest ih =>
    obtain ⟨k₁, v₁⟩ := p
    by_cases h : k = k₁
    · simp [List.lookup, h]
    · have : (k == k₁) = false := by simp [beq_iff_eq]; exact h
      simp [List.lookup, this, ih]

@[simp] theorem dinsertAll_nil (d : Dict) : dinsertAll d [] = d := rfl

@[simp] theorem dinsertAll_cons (d : Dict) (k : String) (v : Value)
    (ps : List (String × Value)) :
    dinsertAll d ((k, v) :: ps) = dinsertAll (dinsert d k v) ps := rfl

theorem lookup_dinsertAll (ps : List (String × Value)) (d : Dict) (k : String) :
    List.lookup k (dinsertAll d ps) =
      match List.lookup k ps.reverse with
      | some v => some v
      | none => List.lookup k d := by
  induction ps generalizing d with
  | nil => rfl
  | cons p ps ih =>
    obtain ⟨k₁, v₁⟩ := p
    rw [dinsertAll_cons, ih, List.reverse_cons, lookup_append]
    rcases hrev : List.lookup k ps.reverse with _ | v
    · by_cases h : k = k₁
      · subst h
        simp [List.lookup, lookup_dinsert_self]
      · have hb : (k == k₁) = false := by simp [beq_iff_eq]; exact h
        simp [List.lookup, hb, lookup_dinsert_ne d k₁ k v₁ (Ne.symm h)]
    · rfl

theorem mem_dkeys_dinsertAll (ps : List (String × Value)) (d : Dict) (k : String) :
    k ∈ dkeys (dinsertAll d ps) ↔ k ∈ dkeys d ∨ k ∈ ps.map Prod.fst := by
  induction ps generalizing d with
  | nil => simp
  | cons p ps ih =>
    obtain ⟨k₁, v₁⟩ := p
    rw [dinsertAll_cons, ih]
    rw [mem_dkeys_dinsert]
    simp only [List.map_cons, List.mem_cons]
    tauto

theorem length_dkeys_dinsertAll (ps : List (String × Value)) (d : Dict)
    (hnd : (ps.map Prod.fst).Nodup) (hdisj : ∀ k ∈ ps.map Prod.fst, k ∉ dkeys d) :
    (dkeys (dinsertAll d ps)).length = (dkeys d).length + ps.length := by
  induction ps generalizing d with
  | nil => simp
  | cons p ps ih =>
    obtain ⟨k₁, v₁⟩ := p
    simp only [List.map_cons, List.nodup_cons] at hnd
    rw [dinsertAll_cons]
    have hk₁ : k₁ ∉ dkeys d := hdisj k₁ (by simp)
    have hstep : dkeys (dinsert d k₁ v₁) = dkeys d ++ [k₁] :=
      dkeys_dinsert_not_mem d k₁ v₁ hk₁
    have hdisj' : ∀ k ∈ ps.map Prod.fst, k ∉ dkeys (dinsert d k₁ v₁) := by
      intro k hk
      rw [hstep]
      simp only [List.mem_append, List.mem_cons]
      rintro (hmem | hmem)
      · exact hdisj k (by simp [hk]) hmem
      · simp at hmem
        subst hmem
        exact hnd.1 hk
    rw [ih (dinsert d k₁ v₁) hnd.2 hdisj', hstep]
    simp
    omega

/-! ## Embedding of `app/workers/task_executors.py`

Each executor's `execute(config, context)` returns a Python dict; here it
returns a `Dict`.  An executor that can raise would return
`Except String Dict`, but every built-in executor wraps its fallible part
in `try/except` and returns an error dict instead, so all five are total
functions.  External effects are oracle parameters:

* `net : HttpRequest → Except String HttpResponse` models the `httpx`
  client — `Except.error e` is a transport-level exception whose message
  is `str(e)`;
* `evalCond : Value → Dict → Except String Value` models Python
  `eval(condition, {"__builtins__": {}}, context)`, which may raise.
-/

/-- Python truthiness (`bool(v)`) for the value forms the program uses. -/
def pyTruthy : Value → Bool
  | .null => false
  | .bool b => b
  | .int n => n != 0
  | .str s => s ≠ ""
  | .list xs => ¬ xs.isEmpty
  | .dict xs => ¬ xs.isEmpty

/-- `isinstance(v, str)`. -/
def isStr : Value → Bool
  | .str _ => true
  | _ => false

/-- `isinstance(v, dict)`. -/
def isDict : Value → Bool
  | .dict _ => true
  | _ => false

/-- `config.get(k)`: `None` when the key is absent. -/
def cfgGet (config : Dict) (k : String) : Value :=
  (List.lookup k config).getD .null

/-- `config.get(k, default)`. -/
def cfgGetD (config : Dict) (k : String) (dflt : Value) : Value :=
  (List.lookup k config).getD dflt

/-- `.upper()` applied to the method string (identity on non-strings,
which in Python would raise before the `try` block — not exercised by
any claim). -/
def upperV : Value → Value
  | .str s => .str s.toUpper
  | v => v

/-- The HTTP request assembled by `HttpRequestExecutor.execute` before the
`try` block: url, upper-cased method, headers, JSON body
(`body if body else None`), timeout. -/
structure HttpRequest where
  url : Value
  method : Value
  headers : Value
  body : Value
  timeout : Value

/-- The response object the oracle returns on transport success. -/
structure HttpResponse where
  status_code : Int
  headers : Dict
  text : String

/-- Field extraction of `HttpRequestExecutor.execute` (the code before
`client.request`). -/
def buildRequest (config : Dict) : HttpRequest :=
  { url := cfgGet config "url"
    method := upperV (cfgGetD config "method" (.str "GET"))
    headers := cfgGetD config "headers" (.dict [])
    body := if pyTruthy (cfgGet config "body") then cfgGet config "body" else .null
    timeout := cfgGetD config "timeout" (.int 30) }

/-- `HttpRequestExecutor.execute`: one HTTP call; on transport success a
dict with status code, headers, body text and `success` iff the status is
in `[200, 300)`; on a transport exception a caught `success=false` error
dict.  All four result keys are distinct string literals, so the Python
dict literal is the plain association list. -/
def HttpRequestExecutor_execute (net : HttpRequest → Except String HttpResponse)
    (config _context : Dict) : Dict :=
  match net (buildRequest config) with
  | .ok response =>
      [("status_code", .int response.status_code),
       ("headers", .dict response.headers),
       ("body", .str response.text),
       ("success", .bool (decide (200 ≤ response.status_code) &&
                          decide (response.status_code < 300)))]
  | .error e => [("success", .bool false), ("error", .str e)]

/-- `EmailExecutor.execute`: simulated delivery, always `success=true`. -/
def EmailExecutor_execute (config _context : Dict) : Dict :=
  [("success", .bool true),
   ("to", cfgGet config "to"),
   ("subject", cfgGet config "subject"),
   ("message", .str "Email sent successfully (simulated)")]

/-- `DatabaseExecutor.execute`: simulated query, always `success=true`. -/
def DatabaseExecutor_execute (config _context : Dict) : Dict :=
  [("success", .bool true),
   ("operation", cfgGet config "operation"),
   ("table", cfgGet config "table"),
   ("message", .str "Database operation completed (simulated)")]

/-- The source value `context.get(source_field, {})` read by
`TransformExecutor.execute`; a missing or non-string `source_field`
(Python `None`) finds no entry, giving the `{}` default. -/
def transformSourceData (config context : Dict) : Value :=
  match cfgGet config "source_field" with
  | .str k => (List.lookup k context).getD (.dict [])
  | _ => .dict []

/-- Python `str.upper()`, modelled characterwise (faithful on the ASCII
strings the transform operations handle). -/
def pyUpper (s : String) : String :=
  ⟨s.data.map Char.toUpper⟩

/-- Python `str.lower()`, modelled characterwise. -/
def pyLower (s : String) : String :=
  ⟨s.data.map Char.toLower⟩

/-- The result key `target_field or "result"`: the configured key when it
is a truthy string, else the default `"result"`. -/
def transformTargetKey (config : Dict) : String :=
  match cfgGet config "target_field" with
  | .str s => if s = "" then "result" else s
  | _ => "result"

/-- The `if/elif/else` chain of `TransformExecutor.execute` computing
`result` from the operation tag and the source value: each operation
applies only when the source has the type it requires
(`isinstance` checks), everything else passes the source through. -/
def transformApply (config : Dict) (operation source_data : Value) : Value :=
  match operation, source_data with
  | .str "uppercase", .str s => Value.str (pyUpper s)
  | .str "lowercase", .str s => Value.str (pyLower s)
  | .str "extract", .dict d =>
      let extract_key := cfgGet config "extract_key"
      if pyTruthy extract_key then
        match extract_key with
        | .str ek => (List.lookup ek d).getD .null
        | _ => .null
      else source_data
  | _, _ => source_data

/-- `TransformExecutor.execute`: apply the configured operation via
`transformApply` and return
`{"success": True, target_field or "result": result}`.  The Python dict
literal's keys may collide (when `target_field == "success"`), so it is
built with `mkDict`, whose later entry overwrites the earlier one. -/
def TransformExecutor_execute (config context : Dict) : Dict :=
  let operation := cfgGet config "operation"
  let source_data := transformSourceData config context
  let result := transformApply config operation source_data
  mkDict [("success", .bool true), (transformTargetKey config, result)]

/-- `ConditionalExecutor.execute`: evaluate the condition through the
`eval` oracle; on success report `condition_met` and the selected
`true_tasks`/`false_tasks` lists, on an `eval` exception a caught
`success=false` error dict. -/
def ConditionalExecutor_execute (evalCond : Value → Dict → Except String Value)
    (config context : Dict) : Dict :=
  let condition := cfgGet config "condition"
  match evalCond condition context with
  | .ok result =>
      [("success", .bool true),
       ("condition_met", .bool (pyTruthy result)),
       ("true_tasks", if pyTruthy result then cfgGetD config "true_tasks" (.list []) else .list []),
       ("false_tasks", if ¬ pyTruthy result then cfgGetD config "false_tasks" (.list []) else .list [])]
  | .error e => [("success", .bool false), ("error", .str e)]

/-- The five registered executors. -/
inductive ExecutorTag where
  | http_request
  | email
  | database
  | transform
  | conditional
  deriving DecidableEq, Repr

/-- The module-level `TASK_EXECUTORS` registry. -/
def TASK_EXECUTORS : List (String × ExecutorTag) :=
  [("http_request", .http_request),
   ("email", .email),
   ("database", .database),
   ("transform", .transform),
   ("conditional", .conditional)]

/-- `get_task_executor`: registry lookup, raising
`ValueError(f"Unsupported task type: {task_type}")` on a miss (every
registered executor instance is truthy, so `if not executor` is exactly
the `None` check). -/
def get_task_executor (task_type : String) : Except String ExecutorTag :=
  match List.lookup task_type TASK_EXECUTORS with
  | some executor => .ok executor
  | none => .error ("Unsupported task type: " ++ task_type)

/-- Dispatch `executor.execute(config, context)` for a registry entry. -/
def executorExecute (net : HttpRequest → Except String HttpResponse)
    (evalCond : Value → Dict → Except String Value) :
    ExecutorTag → Dict → Dict → Dict
  | .http_request => HttpRequestExecutor_execute net
  | .email => EmailExecutor_execute
  | .database => DatabaseExecutor_execute
  | .transform => TransformExecutor_execute
  | .conditional => ConditionalExecutor_execute evalCond

/-! ## Embedding of `app/workers/workflow_executor.py` -/

/-- A task row as the engine reads it: name, type tag, configuration and
order index. -/
structure Task where
  name : String
  type : String
  configuration : Dict
  order_index : Int

/-- `sorted(tasks, key=lambda t: t.order_index)`: Python's stable sort,
modelled by Mathlib's stable `insertionSort` on the order-index
preorder. -/
def taskLE (a b : Task) : Prop :=
  a.order_index ≤ b.order_index

instance : DecidableRel taskLE := fun a b =>
  inferInstanceAs (Decidable (a.order_index ≤ b.order_index))

instance : IsTotal Task taskLE :=
  ⟨fun a b => Int.le_total a.order_index b.order_index⟩

instance : IsTrans Task taskLE :=
  ⟨fun _ _ _ hab hbc => le_trans hab hbc⟩

/-- `sorted_tasks = sorted(tasks, key=lambda t: t.order_index)`. -/
def sortTasks (tasks : List Task) : List Task :=
  List.insertionSort taskLE tasks

/-- The dict `{"success": False, "error": str(e)}` recorded for a task
whose loop body raised. -/
def errEntry (e : String) : Dict :=
  [("success", .bool false), ("error", .str e)]

/-- The body of the engine's per-task `try` block: look up the executor
by type (which may raise `Unsupported task type`) and run it (the five
built-in executors are total). -/
def runTask (net : HttpRequest → Except String HttpResponse)
    (evalCond : Value → Dict → Except String Value)
    (task : Task) (context : Dict) : Except String Dict :=
  (get_task_executor task.type).map
    (fun executor => executorExecute net evalCond executor task.configuration context)

/-- The engine's task loop, generic in the loop body `execute`: on a
normal return store the result dict under the task's name in both the
result map and the context; on an exception record
`{"success": False, "error": str(e)}` in the result map only and
continue with the remaining tasks. -/
def executeTasksGo (execute : Task → Dict → Except String Dict) :
    List Task → Dict → Dict → Dict × Dict
  | [], context, task_results => (task_results, context)
  | task :: rest, context, task_results =>
    match execute task context with
    | .ok task_result =>
        executeTasksGo execute rest
          (dinsert context task.name (.dict task_result))
          (dinsert task_results task.name (.dict task_result))
    | .error e =>
        executeTasksGo execute rest context
          (dinsert task_results task.name (.dict (errEntry e)))

/-- `WorkflowExecutor._execute_tasks`: stable-sort by order index, seed
the context with `{"input": input_data}`, run the loop, and return
`{"tasks": task_results, "context": context}`. -/
def execute_tasks (execute : Task → Dict → Except String Dict)
    (tasks : List Task) (input_data : Dict) : Value :=
  let sorted_tasks := sortTasks tasks
  let context : Dict := [("input", .dict input_data)]
  let p := executeTasksGo execute sorted_tasks context []
  .dict [("tasks", .dict p.1), ("context", .dict p.2)]

/-- Specification device (not part of the source): the sequence of
(task name, stored result value) pairs the loop records in
`task_results`, in execution order. -/
def stepTrace (execute : Task → Dict → Except String Dict) :
    List Task → Dict → List (String × Value)
  | [], _ => []
  | task :: rest, context =>
    match execute task context with
    | .ok r => (task.name, .dict r) :: stepTrace execute rest (dinsert context task.name (.dict r))
    | .error e => (task.name, .dict (errEntry e)) :: stepTrace execute rest context

/-- Specification device (not part of the source): the subsequence of
`stepTrace` coming from tasks whose loop body returned normally — the
only steps that write to the context. -/
def okTrace (execute : Task → Dict → Except String Dict) :
    List Task → Dict → List (String × Value)
  | [], _ => []
  | task :: rest, context =>
    match execute task context with
    | .ok r => (task.name, .dict r) :: okTrace execute rest (dinsert context task.name (.dict r))
    | .error _ => okTrace execute rest context

/-- The workflow row as the engine reads it. -/
structure Workflow where
  is_active : Bool
  tasks : List Task

/-- A `WorkflowExecution` record.  Timestamps are rationals (seconds);
`execution_time` is `int(...total_seconds())`. -/
structure WorkflowExecution where
  workflow_id : String
  status : String
  started_at : ℚ
  completed_at : Option ℚ
  execution_time : Option Int
  result : Value
  error_message : Option String

/-- The environment a single `execute_workflow` call runs in: the two
executor oracles, the workflow the `SELECT ... WHERE id == workflow_id`
query returns (`none` models `scalar_one_or_none()` finding nothing),
and the two `datetime.utcnow()` readings. -/
structure Env where
  net : HttpRequest → Except String HttpResponse
  evalCond : Value → Dict → Except String Value
  findWorkflow : Option Workflow
  t_start : ℚ
  t_end : ℚ

/-- Python `int(q)`: truncation toward zero. -/
def pyIntTrunc (q : ℚ) : Int :=
  if 0 ≤ q then ⌊q⌋ else ⌈q⌉

/-- `input_data or {}`. -/
def pyOrEmpty : Option Dict → Dict
  | some d => d
  | none => []

/-- The execution record as first created and committed: `running`,
started now, empty result. -/
def initialExecution (env : Env) (workflow_id : String) : WorkflowExecution :=
  { workflow_id := workflow_id
    status := "running"
    started_at := env.t_start
    completed_at := none
    execution_time := none
    result := .dict []
    error_message := none }

/-- The body of `execute_workflow`'s `try` block: load the workflow
(raising when absent), check `is_active` (raising when inactive), then
run the tasks.  The task loop itself catches everything its body raises,
so it contributes no exception. -/
def engineBody (env : Env) (workflow_id : String) (input_data : Option Dict) :
    Except String Value :=
  match env.findWorkflow with
  | none => .error s!"Workflow {workflow_id} not found"
  | some workflow =>
      if workflow.is_active then
        .ok (execute_tasks (runTask env.net env.evalCond) workflow.tasks (pyOrEmpty input_data))
      else .error s!"Workflow {workflow_id} is not active"

/-- `WorkflowExecutor.execute_workflow`: create the `running` record,
run the body, and apply the single terminal mutation — `completed` with
the result map on a normal return, `failed` with the error message on an
exception, in both cases stamping `completed_at` and
`execution_time = int((completed_at - started_at).total_seconds())`. -/
def execute_workflow (env : Env) (workflow_id : String) (input_data : Option Dict) :
    WorkflowExecution :=
  let execution := initialExecution env workflow_id
  match engineBody env workflow_id input_data with
  | .ok execution_result =>
      { execution with
          status := "completed"
          completed_at := some env.t_end
          execution_time := some (pyIntTrunc (env.t_end - env.t_start))
          result := execution_result }
  | .error e =>
      { execution with
          status := "failed"
          completed_at := some env.t_end
          execution_time := some (pyIntTrunc (env.t_end - env.t_start))
          error_message := some e }

/-- The successive committed states of the execution record: the
`running` record at creation and the single terminal update — nothing
mutates it afterwards. -/
def executionStates (env : Env) (workflow_id : String) (input_data : Option Dict) :
    List WorkflowExecution :=
  [initialExecution env workflow_id, execute_workflow env workflow_id input_data]

/-! ## Characterization lemmas for the engine -/

theorem executeTasksGo_results (execute : Task → Dict → Except String Dict)
    (ts : List Task) (ctx res : Dict) :
    (executeTasksGo execute ts ctx res).1 = dinsertAll res (stepTrace execute ts ctx) := by
  induction ts generalizing ctx res with
  | nil => rfl
  | cons t rest ih =>
    rcases h : execute t ctx with e | r
    · simp [executeTasksGo, stepTrace, h, ih]
    · simp [executeTasksGo, stepTrace, h, ih]

theorem executeTasksGo_context (execute : Task → Dict → Except String Dict)
    (ts : List Task) (ctx res : Dict) :
    (executeTasksGo execute ts ctx res).2 = dinsertAll ctx (okTrace execute ts ctx) := by
  induction ts generalizing ctx res with
  | nil => rfl
  | cons t rest ih =>
    rcases h : execute t ctx with e | r
    · simp [executeTasksGo, okTrace, h, ih]
    · simp [executeTasksGo, okTrace, h, ih]

theorem stepTrace_names (execute : Task → Dict → Except String Dict)
    (ts : List Task) (ctx : Dict) :
    (stepTrace execute ts ctx).map Prod.fst = ts.map Task.name := by
  induction ts generalizing ctx with
  | nil => rfl
  | cons t rest ih =>
    rcases h : execute t ctx with e | r
    · simp [stepTrace, h, ih]
    · simp [stepTrace, h, ih]

theorem okTrace_names_subset (execute : Task → Dict → Except String Dict)
    (ts : List Task) (ctx : Dict) :
    ∀ n ∈ (okTrace execute ts ctx).map Prod.fst, n ∈ ts.map Task.name := by
  induction ts generalizing ctx with
  | nil => simp [okTrace]
  | cons t rest ih =>
    intro n hn
    rcases h : execute t ctx with e | r
    · simp only [okTrace, h] at hn
      simp [ih _ _ hn]
    · simp only [okTrace, h, List.map_cons, List.mem_cons] at hn
      rcases hn with hn | hn
      · simp [hn]
      · simp [ih _ _ hn]

theorem lookup_executeTasksGo_not_mem (execute : Task → Dict → Except String Dict)
    (ts : List Task) (ctx res : Dict) (n : String) (h : n ∉ ts.map Task.name) :
    List.lookup n (executeTasksGo execute ts ctx res).1 = List.lookup n res := by
  rw [executeTasksGo_results, lookup_dinsertAll]
  have hkeys : n ∉ dkeys ((stepTrace execute ts ctx).reverse) := by
    intro hm
    apply h
    have : n ∈ (stepTrace execute ts ctx).map Prod.fst := by
      have := List.mem_reverse.mp (by
        rw [← List.map_reverse]
        exact hm)
      exact this
    rwa [stepTrace_names] at this
  rw [lookup_eq_none_of_not_mem _ _ hkeys]

/-- Stability of `orderedInsert` on the order-index preorder: inserting a
task does not disturb the relative order of tasks with any fixed order
index. -/
theorem filter_orderedInsert (t : Task) (l : List Task) (k : Int) :
    (List.orderedInsert taskLE t l).filter (fun u => u.order_index = k) =
      if t.order_index = k then
        t :: l.filter (fun u => u.order_index = k)
      else l.filter (fun u => u.order_index = k) := by
  induction l with
  | nil =>
    by_cases hk : t.order_index = k <;> simp [List.orderedInsert, hk]
  | cons u us ih =>
    by_cases hle : taskLE t u
    · by_cases hk : t.order_index = k <;>
        simp [List.orderedInsert, hle, List.filter_cons, hk]
    · have hlt : u.order_index < t.order_index := by
        simp only [taskLE, not_le] at hle
        exact hle
      by_cases hk : t.order_index = k
      · have huk : ¬ u.order_index = k := by omega
        simp [List.orderedInsert, hle, List.filter_cons, huk, ih, hk]
      · by_cases huk : u.order_index = k <;>
          simp [List.orderedInsert, hle, List.filter_cons, huk, ih, hk]

/-- Stability of the engine's sort: for every order index, the tasks
carrying it appear in `sortTasks tasks` in their original order. -/
theorem filter_sortTasks (tasks : List Task) (k : Int) :
    (sortTasks tasks).filter (fun u => u.order_index = k) =
      tasks.filter (fun u => u.order_index = k) := by
  induction tasks with
  | nil => rfl
  | cons t ts ih =>
    show (List.orderedInsert taskLE t (List.insertionSort taskLE ts)).filter _ = _
    rw [filter_orderedInsert]
    by_cases hk : t.order_index = k <;> simp [hk, List.filter_cons]
    · exact ih
    · exact ih

theorem sortTasks_perm (tasks : List Task) : List.Perm (sortTasks tasks) tasks :=
  List.perm_insertionSort taskLE tasks

theorem sortTasks_sorted (tasks : List Task) :
    (sortTasks tasks).Sorted taskLE :=
  List.sorted_insertionSort taskLE tasks

/-- `execute_workflow` marks the record `completed` exactly when the
workflow was found and active; otherwise `failed`. -/
theorem execute_workflow_status (env : Env) (wid : String) (input : Option Dict) :
    ((execute_workflow env wid input).status = "completed" ↔
      ∃ wf, env.findWorkflow = some wf ∧ wf.is_active = true) ∧
    ((execute_workflow env wid input).status = "failed" ↔
      (env.findWorkflow = none ∨ ∃ wf, env.findWorkflow = some wf ∧ wf.is_active = false)) := by
  rcases hw : env.findWorkflow with _ | wf
  · simp [execute_workflow, engineBody, hw, initialExecution]
  · rcases ha : wf.is_active with _ | _
    · simp [execute_workflow, engineBody, hw, ha, initialExecution]
    · simp [execute_workflow, engineBody, hw, ha, initialExecution]

/-- When no operation applies — the tag is unrecognized or the source
value does not have the type the tag requires — the transform passes the
source value through unchanged. -/
theorem transformApply_default (config : Dict) (op sd : Value)
    (h1 : ¬ (op = .str "uppercase" ∧ isStr sd = true))
    (h2 : ¬ (op = .str "lowercase" ∧ isStr sd = true))
    (h3 : ¬ (op = .str "extract" ∧ isDict sd = true)) :
    transformApply config op sd = sd := by
  unfold transformApply
  split
  · exact absurd ⟨rfl, rfl⟩ h1
  · exact absurd ⟨rfl, rfl⟩ h2
  · exact absurd ⟨rfl, rfl⟩ h3
  · rfl

/-- The dict literal `{"success": True, tk: v}` for `tk ≠ "success"`:
two entries, looked up independently. -/
theorem lookup_mkDict_success_pair (tk : String) (v : Value) (h : tk ≠ "success") :
    mkDict [("success", .bool true), (tk, v)] = [("success", .bool true), (tk, v)] ∧
    List.lookup tk (mkDict [("success", .bool true), (tk, v)]) = some v ∧
    List.lookup "success" (mkDict [("success", .bool true), (tk, v)]) = some (.bool true) := by
  have he : mkDict [("success", .bool true), (tk, v)] = [("success", .bool true), (tk, v)] := by
    have : ¬ ("success" = tk) := fun hh => h hh.symm
    simp [mkDict, dinsertAll, dinsert, this]
  refine ⟨he, ?_, ?_⟩
  · rw [he]
    have hb : (tk == "success") = false := by simp [beq_iff_eq]; exact h
    simp [List.lookup, hb]
  · rw [he]
    simp [List.lookup]

/-! ## Concrete fixtures used by witnesses and counterexamples -/

/-- An HTTP oracle on which every call fails at transport level. -/
def netUnavailable : HttpRequest → Except String HttpResponse :=
  fun _ => .error "network unavailable"

/-- An HTTP oracle on which every call returns status 404. -/
def net404 : HttpRequest → Except String HttpResponse :=
  fun _ => .ok { status_code := 404, headers := [], text := "not found" }

/-- An `eval` oracle that always raises. -/
def evalRaises : Value → Dict → Except String Value :=
  fun _ _ => .error "eval error"

def taskBogusFetch : Task :=
  { name := "fetch", type := "bogus", configuration := [], order_index := 0 }

def taskMailer : Task :=
  { name := "mailer", type := "email", configuration := [], order_index := 1 }

def taskEmailX : Task :=
  { name := "x", type := "email", configuration := [], order_index := 0 }

def taskBogusX : Task :=
  { name := "x", type := "bogus", configuration := [], order_index := 1 }

def taskNotify : Task :=
  { name := "notify", type := "webhook", configuration := [], order_index := 0 }

def taskHttpCall : Task :=
  { name := "call", type := "http_request", configuration := [], order_index := 0 }

/-- An environment whose workflow is active and holds one task of the
unregistered type `"bogus"`. -/
def envBogus : Env :=
  { net := netUnavailable, evalCond := evalRaises,
    findWorkflow := some { is_active := true, tasks := [taskBogusFetch] },
    t_start := 0, t_end := 0 }

/-- An environment whose workflow is active and holds one task of the
unregistered type `"webhook"`. -/
def envWebhook : Env :=
  { net := netUnavailable, evalCond := evalRaises,
    findWorkflow := some { is_active := true, tasks := [taskNotify] },
    t_start := 0, t_end := 5 }

/-! ## Claims -/

/-- Claim C3 (confirmed): when a task's loop body raises — the executor
raising, as distinct from returning `success=false` internally — the
engine catches it, records `{"success": false, "error": <message>}` under
that task's name in the per-task result map, and continues with the
remaining tasks on the unchanged context; the failure never aborts the
rest of the run, and (when no later task reuses the name) the error entry
survives to the final result map. -/
theorem executor_exception_isolated (execute : Task → Dict → Except String Dict)
    (t : Task) (rest : List Task) (ctx res : Dict) (e : String)
    (h : execute t ctx = .error e) :
    executeTasksGo execute (t :: rest) ctx res =
      executeTasksGo execute rest ctx (dinsert res t.name (.dict (errEntry e))) ∧
    (t.name ∉ rest.map Task.name →
      List.lookup t.name (executeTasksGo execute (t :: rest) ctx res).1 =
        some (.dict (errEntry e))) := by
  have hstep : executeTasksGo execute (t :: rest) ctx res =
      executeTasksGo execute rest ctx (dinsert res t.name (.dict (errEntry e))) := by
    simp [executeTasksGo, h]
  refine ⟨hstep, fun hn => ?_⟩
  rw [hstep, lookup_executeTasksGo_not_mem _ _ _ _ _ hn, lookup_dinsert_self]

/-- Witness for C3: in a two-task run whose first task has the
unregistered type `"bogus"`, the lookup error is caught, recorded under
`"fetch"`, and the `email` task after it still runs. -/
theorem executor_exception_isolated_witness :
    List.lookup "fetch"
      (executeTasksGo (runTask netUnavailable evalRaises)
        (taskBogusFetch :: [taskMailer]) [("input", Value.dict [])] []).1 =
      some (.dict (errEntry "Unsupported task type: bogus")) ∧
    List.lookup "mailer"
      (executeTasksGo (runTask netUnavailable evalRaises)
        (taskBogusFetch :: [taskMailer]) [("input", Value.dict [])] []).1 =
      some (.dict (EmailExecutor_execute [] [("input", Value.dict [])])) := by
  constructor
  · exact (executor_exception_isolated (runTask netUnavailable evalRaises)
      taskBogusFetch [taskMailer] [("input", Value.dict [])] []
      "Unsupported task type: bogus" rfl).2 (by decide)
  · rfl

/-- Claim C4 (confirmed): the engine runs tasks in ascending order-index
order under a stable sort — the sorted list is a permutation of the
input, sorted by order index, and tasks sharing an order index keep
their original relative order — and it runs every task: the sequence of
executed task names is the full sorted name list whatever the executors
return (so a conditional's `true_tasks`/`false_tasks` lists cannot
change which tasks execute), and every task's name reaches the result
map. -/
theorem engine_runs_all_tasks_in_stable_order (tasks : List Task) :
    List.Perm (sortTasks tasks) tasks ∧
    (sortTasks tasks).Sorted taskLE ∧
    (∀ k : Int, (sortTasks tasks).filter (fun u => u.order_index = k) =
      tasks.filter (fun u => u.order_index = k)) ∧
    (∀ execute ctx, (stepTrace execute (sortTasks tasks) ctx).map Prod.fst =
      (sortTasks tasks).map Task.name) ∧
    (∀ execute (input : Dict), ∀ t ∈ tasks,
      t.name ∈ dkeys (executeTasksGo execute (sortTasks tasks)
        [("input", Value.dict input)] []).1) := by
  refine ⟨sortTasks_perm tasks, sortTasks_sorted tasks, filter_sortTasks tasks,
    fun execute ctx => stepTrace_names execute (sortTasks tasks) ctx,
    fun execute input t ht => ?_⟩
  rw [executeTasksGo_results]
  rw [mem_dkeys_dinsertAll]
  right
  rw [stepTrace_names]
  exact List.mem_map_of_mem Task.name ((sortTasks_perm tasks).symm.subset ht)

/-- Witness for C4: in a run of an `email` task and a `bogus`-typed task,
both task names reach the result map even though the conditional-free
executors and the failing lookup return what they will. -/
theorem engine_runs_all_tasks_in_stable_order_witness :
    "mailer" ∈ dkeys (executeTasksGo (runTask netUnavailable evalRaises)
      (sortTasks [taskBogusFetch, taskMailer]) [("input", Value.dict [])] []).1 := by
  exact (engine_runs_all_tasks_in_stable_order [taskBogusFetch, taskMailer]).2.2.2.2
    (runTask netUnavailable evalRaises) [] taskMailer (by simp)

/-- Claim C6 (confirmed): the `http_request` executor's result carries the
status code, the response headers, the response body text, and a
`success` boolean that is true iff the status lies in `[200, 300)`; on a
transport-level failure it returns `success=false` with the error string;
and at engine level an `http_request` task's body never raises — the
exception is consumed inside the executor. -/
theorem http_executor_result (net : HttpRequest → Except String HttpResponse)
    (evalC : Value → Dict → Except String Value) (config context : Dict) :
    (∀ response, net (buildRequest config) = .ok response →
      List.lookup "status_code" (HttpRequestExecutor_execute net config context) =
        some (.int response.status_code) ∧
      List.lookup "headers" (HttpRequestExecutor_execute net config context) =
        some (.dict response.headers) ∧
      List.lookup "body" (HttpRequestExecutor_execute net config context) =
        some (.str response.text) ∧
      (List.lookup "success" (HttpRequestExecutor_execute net config context) =
          some (.bool true) ↔
        200 ≤ response.status_code ∧ response.status_code < 300)) ∧
    (∀ e, net (buildRequest config) = .error e →
      HttpRequestExecutor_execute net config context =
        [("success", .bool false), ("error", .str e)]) ∧
    (∀ t : Task, t.type = "http_request" →
      runTask net evalC t context =
        .ok (HttpRequestExecutor_execute net t.configuration context)) := by
  refine ⟨fun response hok => ?_, fun e herr => ?_, fun t ht => ?_⟩
  · unfold HttpRequestExecutor_execute
    rw [hok]
    refine ⟨rfl, rfl, rfl, ?_⟩
    simp [List.lookup]
  · unfold HttpRequestExecutor_execute
    rw [herr]
  · simp [runTask, ht, get_task_executor, TASK_EXECUTORS, executorExecute, Except.map]

/-- Witness for C6: a 404 response yields `status_code=404` without
`success=true`; a transport failure yields the caught error dict; and
the engine-level body of an `http_request` task returns normally. -/
theorem http_executor_result_witness :
    List.lookup "status_code" (HttpRequestExecutor_execute net404 [] []) =
      some (.int 404) ∧
    HttpRequestExecutor_execute netUnavailable [] [] =
      [("success", .bool false), ("error", .str "network unavailable")] ∧
    runTask net404 evalRaises taskHttpCall [] =
      .ok (HttpRequestExecutor_execute net404 [] []) := by
  refine ⟨?_, ?_, ?_⟩
  · exact ((http_executor_result net404 evalRaises [] []).1
      { status_code := 404, headers := [], text := "not found" } rfl).1
  · exact (http_executor_result netUnavailable evalRaises [] []).2.1
      "network unavailable" rfl
  · exact (http_executor_result net404 evalRaises [] []).2.2 taskHttpCall rfl

/-- Claim C8 (confirmed): the `email` and `database` executors simulate
their effects and return `success=true` for every configuration and
context, so neither can produce a `success=false` result. -/
theorem email_database_always_succeed (config context : Dict) :
    List.lookup "success" (EmailExecutor_execute config context) =
      some (.bool true) ∧
    List.lookup "success" (DatabaseExecutor_execute config context) =
      some (.bool true) := by
  exact ⟨rfl, rfl⟩

/-- Claim C9 (confirmed): the final context equals the seeded context
extended by exactly the normally-returning tasks' entries — a task whose
body raises writes its error entry only into the result map, leaves the
context untouched (so it never overwrites an earlier same-named task's
context entry), and every context key is `"input"` or the name of a task
whose body returned normally. -/
theorem failed_task_leaves_context (execute : Task → Dict → Except String Dict)
    (tasks : List Task) (input : Dict) :
    (executeTasksGo execute (sortTasks tasks) [("input", Value.dict input)] []).2 =
      dinsertAll [("input", Value.dict input)]
        (okTrace execute (sortTasks tasks) [("input", Value.dict input)]) ∧
    (∀ k, k ∈ dkeys (executeTasksGo execute (sortTasks tasks)
        [("input", Value.dict input)] []).2 →
      k = "input" ∨
        k ∈ (okTrace execute (sortTasks tasks) [("input", Value.dict input)]).map Prod.fst) := by
  refine ⟨executeTasksGo_context _ _ _ _, fun k hk => ?_⟩
  rw [executeTasksGo_context] at hk
  rcases (mem_dkeys_dinsertAll _ _ _).mp hk with hk | hk
  · left
    simpa using hk
  · right
    exact hk

/-- Witness for C9: in the run of an `email` task and a same-named
`bogus`-typed task, the context still holds the email result — the key
`"x"` is justified by the ok-trace, not by the failed task. -/
theorem failed_task_leaves_context_witness :
    (executeTasksGo (runTask netUnavailable evalRaises) (sortTasks [taskEmailX, taskBogusX])
        [("input", Value.dict [])] []).2 =
      dinsertAll [("input", Value.dict [])]
        (okTrace (runTask netUnavailable evalRaises) (sortTasks [taskEmailX, taskBogusX])
          [("input", Value.dict [])]) ∧
    ("x" = "input" ∨
      "x" ∈ (okTrace (runTask netUnavailable evalRaises) (sortTasks [taskEmailX, taskBogusX])
        [("input", Value.dict [])]).map Prod.fst) := by
  refine ⟨(failed_task_leaves_context (runTask netUnavailable evalRaises)
    [taskEmailX, taskBogusX] []).1, ?_⟩
  exact (failed_task_leaves_context (runTask netUnavailable evalRaises)
    [taskEmailX, taskBogusX] []).2 "x" (by decide)

/-- Counterexample to claim C1: the per-task `try` block wraps the
executor lookup, so an active workflow holding one task of the
unregistered type `"bogus"` runs to a record marked `completed` — not
`failed` as the claim requires — with the `Unsupported task type` message
stored only under the task's name in the per-task result map. -/
theorem unsupported_type_not_fatal_counterexample :
    (execute_workflow envBogus "wf-1" none).status = "completed" ∧
    (execute_workflow envBogus "wf-1" none).status ≠ "failed" ∧
    (execute_workflow envBogus "wf-1" none).error_message = none ∧
    (execute_workflow envBogus "wf-1" none).result =
      .dict [("tasks", .dict [("fetch", .dict (errEntry "Unsupported task type: bogus"))]),
             ("context", .dict [("input", .dict [])])] := by
  have h1 : (execute_workflow envBogus "wf-1" none).status = "completed" := rfl
  refine ⟨h1, ?_, rfl, rfl⟩
  rw [h1]
  decide

/-- Claim C1 (amended): lookup on an unregistered type tag fails with a
`ValueError` whose message is `Unsupported task type: <type>`, but the
engine's per-task handler catches it — recording
`{"success": false, "error": <message mentioning the type>}` under the
task's name, not skipping it silently — and continues the run, which
terminates with the execution record marked `completed` (given the
workflow was found and active), not `failed`. -/
theorem unsupported_type_recorded_per_task
    (net : HttpRequest → Except String HttpResponse)
    (evalC : Value → Dict → Except String Value) (t : Task)
    (h : List.lookup t.type TASK_EXECUTORS = none) :
    (∀ ctx, runTask net evalC t ctx =
      .error ("Unsupported task type: " ++ t.type)) ∧
    (∀ rest ctx res, executeTasksGo (runTask net evalC) (t :: rest) ctx res =
      executeTasksGo (runTask net evalC) rest ctx
        (dinsert res t.name (.dict (errEntry ("Unsupported task type: " ++ t.type))))) ∧
    (∀ env : Env, ∀ (wid : String) (input : Option Dict) (wf : Workflow),
      env.findWorkflow = some wf → wf.is_active = true →
      (execute_workflow env wid input).status = "completed") := by
  have hrun : ∀ ctx, runTask net evalC t ctx =
      .error ("Unsupported task type: " ++ t.type) := by
    intro ctx
    simp [runTask, get_task_executor, h, Except.map]
  refine ⟨hrun, fun rest ctx res => ?_, fun env wid input wf hfind hact => ?_⟩
  · simp [executeTasksGo, hrun ctx]
  · exact ((execute_workflow_status env wid input).1).mpr ⟨wf, hfind, hact⟩

/-- Witness for the amended C1: the `"bogus"` task's lookup error is
raised, caught and recorded, and the surrounding run completes. -/
theorem unsupported_type_recorded_per_task_witness :
    runTask netUnavailable evalRaises taskBogusFetch [] =
      .error ("Unsupported task type: " ++ "bogus") ∧
    (execute_workflow envBogus "wf-1" none).status = "completed" := by
  refine ⟨?_, ?_⟩
  · exact (unsupported_type_recorded_per_task netUnavailable evalRaises
      taskBogusFetch rfl).1 []
  · exact (unsupported_type_recorded_per_task netUnavailable evalRaises
      taskBogusFetch rfl).2.2 envBogus "wf-1" none
      { is_active := true, tasks := [taskBogusFetch] } rfl rfl

/-- Counterexample to claim C2: an unsupported task type is not an
engine-level exception — with an active workflow holding one
`"webhook"`-typed task the record ends `completed` with no error
message, not `failed` as the claim's list of failure causes asserts. -/
theorem unsupported_type_completes_counterexample :
    (execute_workflow envWebhook "wf-2" none).status = "completed" ∧
    (execute_workflow envWebhook "wf-2" none).status ≠ "failed" ∧
    (execute_workflow envWebhook "wf-2" none).error_message = none ∧
    (execute_workflow envWebhook "wf-2" none).result =
      .dict [("tasks", .dict [("notify", .dict (errEntry "Unsupported task type: webhook"))]),
             ("context", .dict [("input", .dict [])])] := by
  have h1 : (execute_workflow envWebhook "wf-2" none).status = "completed" := rfl
  refine ⟨h1, ?_, rfl, rfl⟩
  rw [h1]
  decide

/-- Claim C2 (amended): every `execute_workflow` call creates the record
in status `running` with an empty result, and performs exactly one
terminal mutation: to `completed` exactly when the workflow was found
and active — however many individual tasks failed — and to `failed`
exactly when the workflow was missing or inactive (an unsupported task
type is handled per task and still completes); in both terminal states
`completed_at` is stamped and `execution_time` is
`completed_at - started_at` truncated to whole seconds, and the record
is not touched after the terminal state. -/
theorem execution_record_lifecycle (env : Env) (wid : String) (input : Option Dict) :
    executionStates env wid input =
      [initialExecution env wid, execute_workflow env wid input] ∧
    (initialExecution env wid).status = "running" ∧
    (initialExecution env wid).result = .dict [] ∧
    ((execute_workflow env wid input).status = "completed" ∨
      (execute_workflow env wid input).status = "failed") ∧
    ((execute_workflow env wid input).status = "completed" ↔
      ∃ wf, env.findWorkflow = some wf ∧ wf.is_active = true) ∧
    ((execute_workflow env wid input).status = "failed" ↔
      env.findWorkflow = none ∨
        ∃ wf, env.findWorkflow = some wf ∧ wf.is_active = false) ∧
    (execute_workflow env wid input).started_at = env.t_start ∧
    (execute_workflow env wid input).completed_at = some env.t_end ∧
    (execute_workflow env wid input).execution_time =
      some (pyIntTrunc (env.t_end - env.t_start)) := by
  refine ⟨rfl, rfl, ?_, ?_, (execute_workflow_status env wid input).1,
    (execute_workflow_status env wid input).2, ?_, ?_, ?_⟩ <;>
    rcases hb : engineBody env wid input with e | r <;>
      simp [execute_workflow, hb, initialExecution]

/-- Counterexample to claim C5: with two tasks both named `"x"` — an
`email` task and then a `"bogus"`-typed task — the later task's error
result lands in the per-task result map but does NOT overwrite the
earlier result in the context: the context still holds the email result
(`success=true`), not the later error entry (`success=false`). -/
theorem duplicate_name_context_counterexample :
    List.lookup "x" (executeTasksGo (runTask netUnavailable evalRaises)
        (sortTasks [taskEmailX, taskBogusX]) [("input", Value.dict [])] []).1 =
      some (.dict (errEntry "Unsupported task type: bogus")) ∧
    List.lookup "x" (executeTasksGo (runTask netUnavailable evalRaises)
        (sortTasks [taskEmailX, taskBogusX]) [("input", Value.dict [])] []).2 =
      some (.dict [("success", Value.bool true), ("to", .null), ("subject", .null),
                   ("message", .str "Email sent successfully (simulated)")]) ∧
    List.lookup "success" (errEntry "Unsupported task type: bogus") =
      some (.bool false) ∧
    Value.bool true ≠ Value.bool false := by
  refine ⟨rfl, rfl, rfl, by simp⟩

/-- Claim C5 (amended): a run over N tasks yields a per-task result map
keyed by exactly the tasks' names — N keys when the names are distinct,
the later of two same-named tasks overwriting the earlier in the result
map — the context is seeded with `{"input": input}`, and each task whose
body returns normally stores its result in the context under its name
(later normal returns overwriting earlier entries); a task whose body
raises updates only the result map, so its error entry does not replace
a same-named context entry. -/
theorem result_map_keyed_by_names (execute : Task → Dict → Except String Dict)
    (tasks : List Task) (input : Dict) :
    (∀ n, n ∈ dkeys (executeTasksGo execute (sortTasks tasks)
        [("input", Value.dict input)] []).1 ↔ n ∈ tasks.map Task.name) ∧
    ((tasks.map Task.name).Nodup →
      (dkeys (executeTasksGo execute (sortTasks tasks)
        [("input", Value.dict input)] []).1).length = tasks.length) ∧
    (∀ n, List.lookup n (executeTasksGo execute (sortTasks tasks)
        [("input", Value.dict input)] []).1 =
      List.lookup n ((stepTrace execute (sortTasks tasks)
        [("input", Value.dict input)]).reverse)) ∧
    (∀ n, List.lookup n (executeTasksGo execute (sortTasks tasks)
        [("input", Value.dict input)] []).2 =
      match List.lookup n ((okTrace execute (sortTasks tasks)
          [("input", Value.dict input)]).reverse) with
      | some v => some v
      | none => List.lookup n [("input", Value.dict input)]) := by
  have hnames : (stepTrace execute (sortTasks tasks)
      [("input", Value.dict input)]).map Prod.fst = (sortTasks tasks).map Task.name :=
    stepTrace_names execute (sortTasks tasks) [("input", Value.dict input)]
  refine ⟨fun n => ?_, fun hnd => ?_, fun n => ?_, fun n => ?_⟩
  · rw [executeTasksGo_results, mem_dkeys_dinsertAll, hnames]
    simp only [dkeys_nil, List.not_mem_nil, false_or]
    exact List.Perm.mem_iff ((sortTasks_perm tasks).map Task.name)
  · rw [executeTasksGo_results]
    have hnodup : ((stepTrace execute (sortTasks tasks)
        [("input", Value.dict input)]).map Prod.fst).Nodup := by
      rw [hnames]
      exact (((sortTasks_perm tasks).map Task.name).symm).nodup hnd
    rw [length_dkeys_dinsertAll _ _ hnodup (by simp)]
    have hlen : (stepTrace execute (sortTasks tasks)
        [("input", Value.dict input)]).length = (sortTasks tasks).length := by
      have := congrArg List.length hnames
      simpa using this
    rw [hlen]
    simpa using ((sortTasks_perm tasks).length_eq)
  · rw [executeTasksGo_results, lookup_dinsertAll]
    rcases List.lookup n ((stepTrace execute (sortTasks tasks)
        [("input", Value.dict input)]).reverse) with _ | v <;> rfl
  · rw [executeTasksGo_context, lookup_dinsertAll]

/-- Witness for the amended C5: a run of the distinctly-named `"fetch"`
and `"mailer"` tasks yields a result map with exactly two keys. -/
theorem result_map_keyed_by_names_witness :
    (dkeys (executeTasksGo (runTask netUnavailable evalRaises)
      (sortTasks [taskBogusFetch, taskMailer]) [("input", Value.dict [])] []).1).length = 2 := by
  exact (result_map_keyed_by_names (runTask netUnavailable evalRaises)
    [taskBogusFetch, taskMailer] []).2.1 (by decide)

/-- Counterexample to claim C7: with `target_field` configured as the
string `"success"`, the two keys of the Python dict literal collide and
the transform's result is the single entry `{"success": "ABC"}` — the
claimed `success=true` flag is absent. -/
theorem transform_success_key_collision_counterexample :
    TransformExecutor_execute
      [("operation", .str "uppercase"), ("source_field", .str "src"),
       ("target_field", .str "success")]
      [("src", .str "abc")] = [("success", .str "ABC")] ∧
    List.lookup "success"
      (TransformExecutor_execute
        [("operation", .str "uppercase"), ("source_field", .str "src"),
         ("target_field", .str "success")]
        [("src", .str "abc")]) = some (.str "ABC") ∧
    Value.str "ABC" ≠ Value.bool true := by
  refine ⟨rfl, rfl, by simp⟩

/-- Claim C7 (amended): the transform executor with operation
`uppercase` and the string `"abc"` bound in the context under the
configured `source_field` returns a result mapping the target key —
`target_field`, or the default `"result"` when `target_field` is unset —
to `"ABC"` together with `success=true`, provided the configured target
key is not the literal `"success"` (in which case the two dict-literal
keys collide and the `success` flag is overwritten). -/
theorem transform_uppercase_result (config context : Dict) (k : String)
    (hop : cfgGet config "operation" = .str "uppercase")
    (hsf : cfgGet config "source_field" = .str k)
    (hsv : List.lookup k context = some (.str "abc"))
    (htk : transformTargetKey config ≠ "success") :
    List.lookup (transformTargetKey config)
      (TransformExecutor_execute config context) = some (.str "ABC") ∧
    List.lookup "success" (TransformExecutor_execute config context) =
      some (.bool true) := by
  have hsd : transformSourceData config context = .str "abc" := by
    simp [transformSourceData, hsf, hsv]
  have happ : transformApply config (cfgGet config "operation")
      (transformSourceData config context) = .str "ABC" := by
    rw [hop, hsd]
    rfl
  have hexec : TransformExecutor_execute config context =
      mkDict [("success", .bool true), (transformTargetKey config, Value.str "ABC")] := by
    show mkDict [("success", .bool true),
      (transformTargetKey config,
        transformApply config (cfgGet config "operation")
          (transformSourceData config context))] = _
    rw [happ]
  obtain ⟨-, hl1, hl2⟩ :=
    lookup_mkDict_success_pair (transformTargetKey config) (Value.str "ABC") htk
  exact ⟨by rw [hexec]; exact hl1, by rw [hexec]; exact hl2⟩

def cfgUpper : Dict :=
  [("operation", .str "uppercase"), ("source_field", .str "src"),
   ("target_field", .str "out")]

/-- Witness for the amended C7 at a concrete uppercase configuration. -/
theorem transform_uppercase_result_witness :
    List.lookup (transformTargetKey cfgUpper)
      (TransformExecutor_execute cfgUpper [("src", Value.str "abc")]) =
      some (.str "ABC") ∧
    List.lookup "success" (TransformExecutor_execute cfgUpper [("src", Value.str "abc")]) =
      some (.bool true) := by
  exact transform_uppercase_result cfgUpper [("src", Value.str "abc")] "src"
    rfl rfl rfl (by decide)

/-- Counterexample to claim C10: with the unrecognized operation
`"noop"` and `target_field` configured as `"success"`, the passthrough
value lands on the colliding `"success"` key, so the result is
`{"success": 5}` — there is no `success=true` flag as the claim
requires. -/
theorem transform_passthrough_collision_counterexample :
    TransformExecutor_execute
      [("operation", .str "noop"), ("source_field", .str "s"),
       ("target_field", .str "success")]
      [("s", .int 5)] = [("success", .int 5)] ∧
    List.lookup "success"
      (TransformExecutor_execute
        [("operation", .str "noop"), ("source_field", .str "s"),
         ("target_field", .str "success")]
        [("s", .int 5)]) = some (.int 5) ∧
    Value.int 5 ≠ Value.bool true := by
  refine ⟨rfl, rfl, by simp⟩

/-- Claim C10 (amended): when the source value is not of the type the
configured operation requires, or the operation tag is unrecognized, the
transform executor passes the source value through unchanged under the
target key together with `success=true` — provided the target key is not
the literal `"success"`, in which case the two dict-literal keys collide
— and when `source_field` is absent from the configuration the
passed-through value is the empty dict `{}` (likewise when the
configured field is absent from the context, via the `.get` default). -/
theorem transform_passthrough_result (config context : Dict)
    (h1 : ¬ (cfgGet config "operation" = .str "uppercase" ∧
      isStr (transformSourceData config context) = true))
    (h2 : ¬ (cfgGet config "operation" = .str "lowercase" ∧
      isStr (transformSourceData config context) = true))
    (h3 : ¬ (cfgGet config "operation" = .str "extract" ∧
      isDict (transformSourceData config context) = true))
    (htk : transformTargetKey config ≠ "success") :
    List.lookup (transformTargetKey config)
      (TransformExecutor_execute config context) =
      some (transformSourceData config context) ∧
    List.lookup "success" (TransformExecutor_execute config context) =
      some (.bool true) ∧
    (List.lookup "source_field" config = none →
      transformSourceData config context = .dict []) := by
  have happ := transformApply_default config (cfgGet config "operation")
    (transformSourceData config context) h1 h2 h3
  have hexec : TransformExecutor_execute config context =
      mkDict [("success", .bool true),
        (transformTargetKey config, transformSourceData config context)] := by
    show mkDict [("success", .bool true),
      (transformTargetKey config,
        transformApply config (cfgGet config "operation")
          (transformSourceData config context))] = _
    rw [happ]
  obtain ⟨-, hl1, hl2⟩ :=
    lookup_mkDict_success_pair (transformTargetKey config)
      (transformSourceData config context) htk
  refine ⟨by rw [hexec]; exact hl1, by rw [hexec]; exact hl2, fun habs => ?_⟩
  simp [transformSourceData, cfgGet, habs]

def cfgNoop : Dict :=
  [("operation", .str "noop"), ("target_field", .str "out")]

/-- Witness for the amended C10 at an unrecognized operation with
`source_field` absent: the `{}` default passes through under `"out"`. -/
theorem transform_passthrough_result_witness :
    List.lookup (transformTargetKey cfgNoop) (TransformExecutor_execute cfgNoop []) =
      some (transformSourceData cfgNoop []) ∧
    List.lookup "success" (TransformExecutor_execute cfgNoop []) = some (.bool true) ∧
    (List.lookup "source_field" cfgNoop = none →
      transformSourceData cfgNoop [] = .dict []) := by
  exact transform_passthrough_result cfgNoop []
    (by simp [cfgGet, cfgNoop])
    (by simp [cfgGet, cfgNoop])
    (by simp [cfgGet, cfgNoop])
    (by decide)

end WorkflowPlatform
